import Mathlib

/-!
Verification development for the drvardanyan-admin appointment dashboard.

Times are modelled as integer minutes on a single timeline; a calendar day
is 1440 minutes, so the day of an instant is its floored division by 1440
and its minute-of-day is the remainder.  Strings are modelled as lists of
characters; the JavaScript `String.includes` check is `containsSub` and
`toLowerCase` is `toLowerL`.

Embedded source locations:
- `src/src/api/api.ts` : `ServiceKey`, the `Appointment` record shape.
- `src/unnamed/part_002` (AppointmentForm) : `serviceOptions` with canonical
  durations, the phone-number validation pattern.
- `src/src/components/AppointmentsList/AppointmentsList.tsx` :
  `filteredAppointments` (search, status, service, date-range filters and the
  descending sort) and `getStatusBadge`.
- `src/src/components/Calendar/Calendar.tsx` : the hard-coded 09:00-18:00,
  15-minute slot loop of `getTimeSlots` and the busy-slot appointment
  resolution (containment first, then a same-day tolerant match).

The appointment Repository (create/update/delete with the overlap check) and
the parameterizable availability window live in the backend, which is not
part of this repository checkout; those definitions are modelled from the
specification and carry a doc comment saying so.
-/

/-- Service keys, from `ServiceKey` in src/src/api/api.ts. -/
inductive ServiceKey
  | consultation
  | treatment
  | extraction
  | prosthetics
deriving DecidableEq

/-- One entry of the service dropdown, from `serviceOptions` in the
appointment form (src/unnamed/part_002). -/
structure ServiceOption where
  value : ServiceKey
  label : String
  duration : Int
deriving DecidableEq

/-- The service dropdown options with their canonical durations in minutes,
from `serviceOptions` in src/unnamed/part_002. -/
def serviceOptions : List ServiceOption :=
  [ ⟨ServiceKey.consultation, "Консультация", 15⟩,
    ⟨ServiceKey.treatment, "Лечение", 45⟩,
    ⟨ServiceKey.extraction, "Удаление", 45⟩,
    ⟨ServiceKey.prosthetics, "Протезирование", 45⟩ ]

/-- Modelled from the spec: the canonical duration of each service
(consultation 15 minutes, the rest 45), used by the backend Repository to
compute `end` from `start`; the same numbers appear in `serviceOptions`. -/
def serviceDuration (k : ServiceKey) : Int :=
  match k with
  | ServiceKey.consultation => 15
  | ServiceKey.treatment => 45
  | ServiceKey.extraction => 45
  | ServiceKey.prosthetics => 45

/-- An appointment record, from `Appointment` in src/src/api/api.ts, with
instants as integer minutes.  The `end` field is renamed `endTime` because
`end` is a Lean keyword. -/
structure Appointment where
  id : Nat
  name : List Char
  phoneNumber : List Char
  service : ServiceKey
  start : Int
  endTime : Int
  createdAt : Int
  updatedAt : Int
deriving DecidableEq

/-- Day index of an instant: floored division of minutes by 1440, the model
of building a date from the year, month and day components. -/
def dayOf (t : Int) : Int := t / 1440

/-- Minute within the day, the model of `getHours() * 60 + getMinutes()`. -/
def minutesOfDay (t : Int) : Int := t % 1440

/-- Substring test on character lists, the model of JavaScript
`String.includes`. -/
def containsSub (hay needle : List Char) : Bool :=
  match hay with
  | [] => needle.isEmpty
  | c :: t => needle.isPrefixOf (c :: t) || containsSub t needle

/-- Character-wise lower-casing, the model of `String.toLowerCase`. -/
def toLowerL (s : List Char) : List Char := s.map Char.toLower

/-- Characters accepted by the body of the phone pattern
`[0-9\s\-\(\)]` in src/unnamed/part_002 (whitespace modelled by the four
common JavaScript whitespace characters). -/
def isPhoneBodyChar (c : Char) : Bool :=
  c.isDigit || c = ' ' || c = '\t' || c = '\n' || c = '\r' ||
    c = '-' || c = '(' || c = ')'

/-- The phone validation pattern of the appointment form, the regular
expression `^[\+]?[0-9\s\-\(\)]+$` from src/unnamed/part_002: an optional
leading plus sign followed by one or more body characters. -/
def phoneMatchesPattern (s : List Char) : Bool :=
  match s with
  | [] => false
  | c :: rest =>
      if c = '+' then !rest.isEmpty && rest.all isPhoneBodyChar
      else (c :: rest).all isPhoneBodyChar

/-- Status-bucket dropdown values of the appointments list. -/
inductive StatusFilter
  | all
  | today
  | upcoming
  | past
deriving DecidableEq

/-- Date-range dropdown values of the appointments list. -/
inductive DateRangeFilter
  | all
  | week
  | month
deriving DecidableEq

/-- The filter state of the appointments list gathered into one value:
search term, status bucket, service and date range. -/
structure Filters where
  searchTerm : List Char
  statusFilter : StatusFilter
  serviceFilter : Option ServiceKey
  dateRangeFilter : DateRangeFilter
deriving DecidableEq

/-- The free-text predicate of `filteredAppointments` in
AppointmentsList.tsx: case-insensitive substring of the name, or verbatim
substring of the phone number. -/
def matchesSearch (term : List Char) (a : Appointment) : Bool :=
  containsSub (toLowerL a.name) (toLowerL term) || containsSub a.phoneNumber term

/-- The status-bucket predicate of `filteredAppointments`: today is
same-calendar-day membership, upcoming and past compare the start against
the sampled now. -/
def statusKeep (sf : StatusFilter) (now : Int) (a : Appointment) : Bool :=
  match sf with
  | StatusFilter.all => true
  | StatusFilter.today => decide (dayOf a.start = dayOf now)
  | StatusFilter.upcoming => decide (now < a.start)
  | StatusFilter.past => decide (a.start < now)

/-- The date-range predicate of `filteredAppointments`: keep appointments
starting no earlier than seven or thirty days before the sampled now. -/
def dateRangeKeep (df : DateRangeFilter) (now : Int) (a : Appointment) : Bool :=
  match df with
  | DateRangeFilter.all => true
  | DateRangeFilter.week => decide (now - 7 * 1440 ≤ a.start)
  | DateRangeFilter.month => decide (now - 30 * 1440 ≤ a.start)

/-- Descending-start comparison used by the final sort of
`filteredAppointments`. -/
def byStartDesc (a b : Appointment) : Prop := b.start ≤ a.start

instance : DecidableRel byStartDesc := fun a b => Int.decLe b.start a.start

instance : IsTotal Appointment byStartDesc :=
  ⟨fun a b => le_total b.start a.start⟩

instance : IsTrans Appointment byStartDesc :=
  ⟨fun _ _ _ h1 h2 => le_trans h2 h1⟩

/-- The query pipeline `filteredAppointments` of AppointmentsList.tsx.  The
source samples `new Date()` separately inside the status-filter block and
inside the date-range block, so the model takes the two sampled instants
`nowStatus` and `nowRange` as distinct parameters. -/
def filteredAppointments (appts : List Appointment) (f : Filters)
    (nowStatus nowRange : Int) : List Appointment :=
  let l1 := if f.searchTerm.isEmpty then appts
    else appts.filter (matchesSearch f.searchTerm)
  let l2 := if f.statusFilter = StatusFilter.all then l1
    else l1.filter (statusKeep f.statusFilter nowStatus)
  let l3 := match f.serviceFilter with
    | none => l2
    | some k => l2.filter (fun a => decide (a.service = k))
  let l4 := if f.dateRangeFilter = DateRangeFilter.all then l3
    else l3.filter (dateRangeKeep f.dateRangeFilter nowRange)
  List.insertionSort byStartDesc l4

/-- The three status badges rendered by `getStatusBadge` in
AppointmentsList.tsx (Завершено, Сегодня, Предстоящее). -/
inductive Badge
  | completed
  | today
  | upcoming
deriving DecidableEq

/-- The badge rule of `getStatusBadge`: completed when the start is in the
past, today when it is less than 24 hours ahead, upcoming otherwise. -/
def getStatusBadge (start now : Int) : Badge :=
  if start < now then Badge.completed
  else if start - now < 24 * 60 then Badge.today
  else Badge.upcoming

/-- A per-day availability window: start minute, end minute and slot
granularity in minutes. -/
structure AvailabilityWindow where
  startMin : Int
  endMin : Int
  granularity : Int
deriving DecidableEq

/-- Modelled from the spec: `generateSlots` of the Clock and Calendar Grid,
the ordered sequence of candidate start instants obtained by stepping from
the window start towards the window end in granularity increments; the grid
is empty when the window is empty or the granularity is not positive.  The
backend generator is not part of this checkout; the frontend hard-codes the
default window (see `calendarGridMinutes`). -/
def generateSlots (w : AvailabilityWindow) : List Int :=
  if w.granularity ≤ 0 then []
  else
    (List.range ((w.endMin - w.startMin) / w.granularity).toNat).map
      (fun i => w.startMin + Int.ofNat i * w.granularity)

/-- The default availability window: 09:00 to 18:00 at 15-minute
granularity. -/
def defaultWindow : AvailabilityWindow := ⟨9 * 60, 18 * 60, 15⟩

/-- The hard-coded slot loop of `getTimeSlots` in Calendar.tsx: hours 9
through 17, minutes 0, 15, 30 and 45, as minutes of the day. -/
def calendarGridMinutes : List Int :=
  (List.range' 9 9).foldr
    (fun h acc =>
      ([0, 15, 30, 45].map (fun m => (h : Int) * 60 + m)) ++ acc) []

/-- A slot is busy when some appointment interval intersects the slot
interval of width `g`. -/
def slotIsBusy (appts : List Appointment) (g s : Int) : Bool :=
  appts.any (fun a => decide (a.start < s + g) && decide (s < a.endTime))

/-- A slot lies fully within the window. -/
def slotInWindow (w : AvailabilityWindow) (s : Int) : Bool :=
  decide (w.startMin ≤ s) && decide (s + w.granularity ≤ w.endMin)

/-- The three slot classifications of the availability model. -/
inductive SlotClass
  | available
  | busy
  | unavailable
deriving DecidableEq

/-- Modelled from the spec: the Availability Resolver classification of one
candidate slot — busy when some appointment intersects it, else available
when it lies fully within the window, else unavailable. -/
def classifySlot (appts : List Appointment) (w : AvailabilityWindow)
    (s : Int) : SlotClass :=
  if slotIsBusy appts w.granularity s then SlotClass.busy
  else if slotInWindow w s then SlotClass.available
  else SlotClass.unavailable

/-- Exact containment of a slot instant in an appointment interval, the
first lookup of the busy-slot resolution in Calendar.tsx. -/
def aptContainsSlot (a : Appointment) (s : Int) : Bool :=
  decide (a.start ≤ s) && decide (s < a.endTime)

/-- Same-calendar-day test, the model of comparing `toDateString()`. -/
def sameCalendarDay (x y : Int) : Bool := decide (dayOf x = dayOf y)

/-- The tolerant fallback match of Calendar.tsx: same calendar day and
minute-of-day difference of at most 15. -/
def tolerantMatch (a : Appointment) (s : Int) : Bool :=
  sameCalendarDay a.start s &&
    decide (|minutesOfDay a.start - minutesOfDay s| ≤ 15)

/-- The busy-slot appointment resolution of `getTimeSlots` in Calendar.tsx:
look for an appointment containing the slot instant, and only if none is
found fall back to the tolerant same-day match. -/
def resolveOwner (appts : List Appointment) (s : Int) : Option Appointment :=
  match appts.find? (fun a => aptContainsSlot a s) with
  | some a => some a
  | none => appts.find? (fun a => tolerantMatch a s)

/-- Follows the claim text: the tolerant fallback stated as same calendar
day together with an absolute start-time difference of at most one slot
granularity. -/
def tolerantMatchSpec (a : Appointment) (s : Int) : Bool :=
  sameCalendarDay a.start s && decide (|a.start - s| ≤ 15)

/-- Follows the claim text: containment first, and only when no appointment
interval contains the slot, the tolerant same-day start-difference match. -/
def resolveOwnerSpec (appts : List Appointment) (s : Int) : Option Appointment :=
  match appts.find? (fun a => aptContainsSlot a s) with
  | some a => some a
  | none => appts.find? (fun a => tolerantMatchSpec a s)

/-- A creation draft, from `CreateAppointmentRequest` in api.ts (the
timezone offset is already folded into the instant model). -/
structure Draft where
  name : List Char
  phoneNumber : List Char
  service : ServiceKey
  start : Int
deriving DecidableEq

/-- A partial update draft, from `UpdateAppointmentRequest` in api.ts. -/
structure PartialDraft where
  name : Option (List Char)
  phoneNumber : Option (List Char)
  service : Option ServiceKey
  start : Option Int
deriving DecidableEq

/-- The recoverable error taxonomy of the Repository. -/
inductive RepoError
  | validationError
  | conflictError
  | notFoundError
deriving DecidableEq

/-- Intersection test of two half-open intervals. -/
def overlapsI (s1 e1 s2 e2 : Int) : Bool :=
  decide (s1 < e2) && decide (s2 < e1)

/-- Draft validation: non-empty name and a phone number matching the
pattern (the service key and the instant are well formed by typing). -/
def validDraft (d : Draft) : Bool :=
  !d.name.isEmpty && phoneMatchesPattern d.phoneNumber

/-- Field validation of a partial draft: each supplied field must satisfy
the same checks as in creation. -/
def validPartial (p : PartialDraft) : Bool :=
  (match p.name with
   | none => true
   | some n => !n.isEmpty) &&
  (match p.phoneNumber with
   | none => true
   | some ph => phoneMatchesPattern ph)

/-- Repository state: the next fresh identifier and the appointment set. -/
structure RepoState where
  nextId : Nat
  appts : List Appointment
deriving DecidableEq

/-- Modelled from the spec: `create` of the Appointment Repository —
validate the draft, compute the end from the service duration, reject with
a conflict when the interval overlaps any existing appointment, otherwise
assign a fresh id and timestamps and commit. -/
def repoCreate (σ : RepoState) (now : Int) (d : Draft) :
    Except RepoError RepoState :=
  if !validDraft d then Except.error RepoError.validationError
  else
    let e := d.start + serviceDuration d.service
    if σ.appts.any (fun a => overlapsI d.start e a.start a.endTime) then
      Except.error RepoError.conflictError
    else
      Except.ok
        ⟨σ.nextId + 1,
          { id := σ.nextId, name := d.name, phoneNumber := d.phoneNumber,
            service := d.service, start := d.start, endTime := e,
            createdAt := now, updatedAt := now } :: σ.appts⟩

/-- Application of a partial draft to an appointment, recomputing the end
from the (possibly new) start and service. -/
def applyPartial (a : Appointment) (p : PartialDraft) (now : Int) :
    Appointment :=
  let svc := p.service.getD a.service
  let st := p.start.getD a.start
  { a with
    name := p.name.getD a.name,
    phoneNumber := p.phoneNumber.getD a.phoneNumber,
    service := svc,
    start := st,
    endTime := st + serviceDuration svc,
    updatedAt := now }

/-- Modelled from the spec: `update` of the Appointment Repository — not
found when the id is unknown, validation as in create for supplied fields,
recompute the end, re-check the overlap invariant against all other
appointments, commit on success. -/
def repoUpdate (σ : RepoState) (id : Nat) (p : PartialDraft) (now : Int) :
    Except RepoError RepoState :=
  match σ.appts.find? (fun a => decide (a.id = id)) with
  | none => Except.error RepoError.notFoundError
  | some a =>
      if !validPartial p then Except.error RepoError.validationError
      else
        let a2 := applyPartial a p now
        if σ.appts.any (fun b =>
            decide (b.id ≠ id) &&
              overlapsI a2.start a2.endTime b.start b.endTime) then
          Except.error RepoError.conflictError
        else
          Except.ok
            ⟨σ.nextId, σ.appts.map (fun b => if b.id = id then a2 else b)⟩

/-- Modelled from the spec: `delete` of the Appointment Repository — not
found when the id is unknown, otherwise remove the appointment. -/
def repoDelete (σ : RepoState) (id : Nat) : Except RepoError RepoState :=
  if σ.appts.any (fun a => decide (a.id = id)) then
    Except.ok ⟨σ.nextId, σ.appts.filter (fun a => decide (a.id ≠ id))⟩
  else Except.error RepoError.notFoundError

/-- One Repository mutation request. -/
inductive RepoOp
  | create (now : Int) (d : Draft)
  | update (id : Nat) (p : PartialDraft) (now : Int)
  | delete (id : Nat)
deriving DecidableEq

/-- Application of one mutation: a rejected mutation leaves the state
unchanged (every operation either fully commits or has no effect). -/
def applyOp (σ : RepoState) (op : RepoOp) : RepoState :=
  match op with
  | RepoOp.create now d => ((repoCreate σ now d).toOption).getD σ
  | RepoOp.update id p now => ((repoUpdate σ id p now).toOption).getD σ
  | RepoOp.delete id => ((repoDelete σ id).toOption).getD σ

/-- The state reached by a sequence of mutations from the empty
repository. -/
def runOps (ops : List RepoOp) : RepoState :=
  ops.foldl applyOp ⟨0, []⟩

/-- Two appointments do not overlap: one ends no later than the other
starts. -/
def noOverlapPair (a b : Appointment) : Prop :=
  a.endTime ≤ b.start ∨ b.endTime ≤ a.start

/-- The repository invariant: pairwise disjoint intervals with pairwise
distinct identifiers, every end equal to start plus the service duration,
and every identifier below the fresh counter. -/
def RepoInv (σ : RepoState) : Prop :=
  σ.appts.Pairwise (fun a b => noOverlapPair a b ∧ a.id ≠ b.id) ∧
    ∀ a ∈ σ.appts,
      a.endTime = a.start + serviceDuration a.service ∧ a.id < σ.nextId

/-- Failing the interval intersection test is exactly disjointness of the
half-open intervals. -/
theorem overlapsI_eq_false {s1 e1 s2 e2 : Int} :
    overlapsI s1 e1 s2 e2 = false ↔ (e2 ≤ s1 ∨ e1 ≤ s2) := by
  simp only [overlapsI, Bool.and_eq_false_iff, decide_eq_false_iff_not, not_lt]

/-- Applying a partial draft keeps the identifier. -/
theorem applyPartial_id (a : Appointment) (p : PartialDraft) (now : Int) :
    (applyPartial a p now).id = a.id := rfl

/-- Applying a partial draft recomputes the end from the new start and
service. -/
theorem applyPartial_endTime (a : Appointment) (p : PartialDraft) (now : Int) :
    (applyPartial a p now).endTime =
      (applyPartial a p now).start + serviceDuration (applyPartial a p now).service := rfl

/-- A successful creation preserves the repository invariant. -/
theorem repoCreate_inv {σ : RepoState} {now : Int} {d : Draft}
    (h : RepoInv σ) :
    RepoInv ((repoCreate σ now d).toOption.getD σ) := by
  by_cases hv : validDraft d = true
  · by_cases hov : σ.appts.any (fun a =>
        overlapsI d.start (d.start + serviceDuration d.service) a.start a.endTime) = true
    · simpa [repoCreate, hv, hov] using h
    · rw [Bool.not_eq_true] at hov
      simp only [repoCreate, hv, Bool.not_true, Bool.false_eq_true, if_false,
        hov, Except.toOption, Option.getD_some]
      refine ⟨List.pairwise_cons.mpr ⟨?_, ?_⟩, ?_⟩
      · intro b hb
        have hdis := (List.any_eq_false.mp hov) b hb
        rw [Bool.not_eq_true, overlapsI_eq_false] at hdis
        refine ⟨?_, ?_⟩
        · unfold noOverlapPair
          dsimp only
          omega
        · have := (h.2 b hb).2
          dsimp only
          omega
      · exact h.1.imp (fun hab => hab)
      · intro a ha
        rcases List.mem_cons.mp ha with rfl | ha2
        · exact ⟨rfl, Nat.lt_succ_self _⟩
        · exact ⟨(h.2 a ha2).1, Nat.lt_succ_of_lt (h.2 a ha2).2⟩
  · simpa [repoCreate, hv] using h

/-- A successful update preserves the repository invariant. -/
theorem repoUpdate_inv {σ : RepoState} {id : Nat} {p : PartialDraft}
    {now : Int} (h : RepoInv σ) :
    RepoInv ((repoUpdate σ id p now).toOption.getD σ) := by
  rcases heq : σ.appts.find? (fun a => decide (a.id = id)) with _ | a
  · simpa [repoUpdate, heq] using h
  · have haid : a.id = id := by
      have := List.find?_some heq
      simpa using this
    have hamem : a ∈ σ.appts := List.mem_of_find?_eq_some heq
    by_cases hv : validPartial p = true
    · by_cases hov : σ.appts.any (fun b =>
          decide (b.id ≠ id) &&
            overlapsI (applyPartial a p now).start (applyPartial a p now).endTime
              b.start b.endTime) = true
      · simp only [repoUpdate, heq, hv, Bool.not_true, Bool.false_eq_true,
          if_false, hov, if_true, Except.toOption, Option.getD_none]
        exact h
      · rw [Bool.not_eq_true] at hov
        have hdis : ∀ b ∈ σ.appts, b.id ≠ id →
            overlapsI (applyPartial a p now).start (applyPartial a p now).endTime
              b.start b.endTime = false := by
          intro b hb hbid
          have := (List.any_eq_false.mp hov) b hb
          simpa [hbid] using this
        simp only [repoUpdate, heq, hv, Bool.not_true, Bool.false_eq_true,
          if_false, hov, Except.toOption, Option.getD_some]
        refine ⟨?_, ?_⟩
        · rw [List.pairwise_map]
          refine h.1.imp_of_mem ?_
          intro x y hx hy hxy
          by_cases hxid : x.id = id
          · by_cases hyid : y.id = id
            · exact absurd (hxid.trans hyid.symm) hxy.2
            · simp only [hxid, if_true, hyid, if_false]
              have hd := hdis y hy hyid
              rw [overlapsI_eq_false] at hd
              exact ⟨Or.symm hd, by rw [applyPartial_id, haid]; exact fun hh => hyid hh.symm⟩
          · by_cases hyid : y.id = id
            · simp only [hxid, if_false, hyid, if_true]
              have hd := hdis x hx hxid
              rw [overlapsI_eq_false] at hd
              exact ⟨hd, by rw [applyPartial_id, haid]; exact fun hh => hxid hh⟩
            · simpa [hxid, hyid] using hxy
        · intro b hb
          rcases List.mem_map.mp hb with ⟨x, hx, rfl⟩
          by_cases hxid : x.id = id
          · simp only [hxid, if_true]
            exact ⟨applyPartial_endTime a p now,
              by rw [applyPartial_id, haid, ← hxid]; exact (h.2 x hx).2⟩
          · simpa [hxid] using h.2 x hx
    · simpa [repoUpdate, heq, hv] using h

/-- A successful deletion preserves the repository invariant. -/
theorem repoDelete_inv {σ : RepoState} {id : Nat} (h : RepoInv σ) :
    RepoInv ((repoDelete σ id).toOption.getD σ) := by
  by_cases hex : σ.appts.any (fun a => decide (a.id = id)) = true
  · simp only [repoDelete, hex, if_true, Except.toOption, Option.getD_some]
    refine ⟨h.1.filter _, ?_⟩
    intro a ha
    exact h.2 a (List.mem_filter.mp ha).1
  · simpa [repoDelete, hex] using h

/-- Every single mutation request preserves the repository invariant. -/
theorem applyOp_inv {σ : RepoState} (op : RepoOp) (h : RepoInv σ) :
    RepoInv (applyOp σ op) := by
  cases op with
  | create now d => exact repoCreate_inv h
  | update id p now => exact repoUpdate_inv h
  | delete id => exact repoDelete_inv h

/-- The invariant holds along any fold of mutation requests. -/
theorem foldl_applyOp_inv :
    ∀ (ops : List RepoOp) (σ : RepoState), RepoInv σ →
      RepoInv (ops.foldl applyOp σ) := by
  intro ops
  induction ops with
  | nil => intro σ h; exact h
  | cons op rest ih =>
      intro σ h
      exact ih _ (applyOp_inv op h)

/-- The empty repository satisfies the invariant. -/
theorem repoInv_init : RepoInv ⟨0, []⟩ := by
  constructor
  · exact List.Pairwise.nil
  · intro a ha
    exact absurd ha (List.not_mem_nil a)

/-- The invariant holds after any sequence of mutations from the empty
repository. -/
theorem runOps_inv (ops : List RepoOp) : RepoInv (runOps ops) :=
  foldl_applyOp_inv ops _ repoInv_init

/-- Concrete creation draft: consultation at minute 600 (10:00). -/
def draftA : Draft := ⟨['a'], ['1'], ServiceKey.consultation, 600⟩

/-- Concrete creation draft: consultation at minute 700. -/
def draftB : Draft := ⟨['b'], ['2'], ServiceKey.consultation, 700⟩

/-- Concrete creation draft overlapping `draftA`: treatment at minute 610. -/
def draftClash : Draft := ⟨['c'], ['3'], ServiceKey.treatment, 610⟩

/-- Concrete partial draft moving an appointment to minute 700. -/
def partialMove : PartialDraft := ⟨none, none, none, some 700⟩

/-- C1: after any sequence of create, update and delete operations no two
appointments in the repository have intersecting half-open start-end
intervals, and create (and update, checked against all other appointments)
rejects with a conflict error any draft whose computed interval would
overlap an existing appointment's interval. -/
theorem c1_no_overlap_invariant :
    (∀ ops : List RepoOp, (runOps ops).appts.Pairwise noOverlapPair) ∧
    (∀ (σ : RepoState) (now : Int) (d : Draft), validDraft d = true →
      σ.appts.any (fun a =>
        overlapsI d.start (d.start + serviceDuration d.service)
          a.start a.endTime) = true →
      repoCreate σ now d = Except.error RepoError.conflictError) ∧
    (∀ (σ : RepoState) (id : Nat) (p : PartialDraft) (now : Int)
        (a : Appointment),
      σ.appts.find? (fun b => decide (b.id = id)) = some a →
      validPartial p = true →
      σ.appts.any (fun b => decide (b.id ≠ id) &&
        overlapsI (applyPartial a p now).start (applyPartial a p now).endTime
          b.start b.endTime) = true →
      repoUpdate σ id p now = Except.error RepoError.conflictError) := by
  refine ⟨?_, ?_, ?_⟩
  · intro ops
    exact ((runOps_inv ops).1).imp (fun hab => hab.1)
  · intro σ now d hv hov
    simp only [repoCreate, hv, Bool.not_true, Bool.false_eq_true, if_false,
      hov, if_true]
  · intro σ id p now a heq hv hov
    simp only [repoUpdate, heq, hv, Bool.not_true, Bool.false_eq_true,
      if_false, hov, if_true]

/-- Witness for C1 at concrete inputs: one committed consultation keeps the
set disjoint, a second overlapping creation is rejected, and an update that
would move one appointment onto another is rejected. -/
theorem c1_no_overlap_invariant_witness :
    (runOps [RepoOp.create 0 draftA]).appts.Pairwise noOverlapPair ∧
    repoCreate (runOps [RepoOp.create 0 draftA]) 0 draftClash =
      Except.error RepoError.conflictError ∧
    repoUpdate (runOps [RepoOp.create 0 draftA, RepoOp.create 0 draftB])
        0 partialMove 0 =
      Except.error RepoError.conflictError :=
  ⟨c1_no_overlap_invariant.1 [RepoOp.create 0 draftA],
   c1_no_overlap_invariant.2.1 (runOps [RepoOp.create 0 draftA]) 0 draftClash
     (by decide) (by decide),
   c1_no_overlap_invariant.2.2
     (runOps [RepoOp.create 0 draftA, RepoOp.create 0 draftB]) 0 partialMove 0
     ⟨0, ['a'], ['1'], ServiceKey.consultation, 600, 615, 0, 0⟩
     (by decide) (by decide) (by decide)⟩

/-- C2: the slot grid steps from the window start towards the window end in
granularity increments, its length is the integer quotient of the window
width by the granularity (and zero when that quotient is not positive), an
empty or ill-configured window yields the empty grid rather than an error,
and the default 09:00-18:00 window at 15-minute granularity yields exactly
the 36 slots hard-coded in the Calendar component. -/
theorem c2_slot_grid (w : AvailabilityWindow) :
    (0 < w.granularity →
      ((generateSlots w).length : Int) =
        max ((w.endMin - w.startMin) / w.granularity) 0) ∧
    (w.endMin ≤ w.startMin ∨ w.granularity ≤ 0 → generateSlots w = []) ∧
    calendarGridMinutes = generateSlots defaultWindow ∧
    (generateSlots defaultWindow).length = 36 := by
  refine ⟨?_, ?_, by decide, by decide⟩
  · intro hg
    rw [generateSlots, if_neg (not_le.mpr hg), List.length_map,
      List.length_range]
    omega
  · intro h
    by_cases hg : w.granularity ≤ 0
    · simp [generateSlots, hg]
    · push_neg at hg
      have hwidth : w.endMin - w.startMin ≤ 0 := by omega
      have hq : (w.endMin - w.startMin) / w.granularity ≤ 0 := by
        calc (w.endMin - w.startMin) / w.granularity
            ≤ 0 / w.granularity := Int.ediv_le_ediv hg hwidth
          _ = 0 := Int.zero_ediv _
      simp [generateSlots, if_neg (not_le.mpr hg), Int.toNat_of_nonpos hq]

/-- Witness for C2 at concrete inputs: the default window has exactly the
quotient many slots, and a reversed window yields the empty grid. -/
theorem c2_slot_grid_witness :
    ((generateSlots defaultWindow).length : Int) =
      max ((defaultWindow.endMin - defaultWindow.startMin) /
        defaultWindow.granularity) 0 ∧
    generateSlots ⟨1080, 540, 15⟩ = [] :=
  ⟨(c2_slot_grid defaultWindow).1 (by decide),
   (c2_slot_grid ⟨1080, 540, 15⟩).2.1 (Or.inl (by decide))⟩

/-- C3: every slot of the generated grid receives exactly one of the three
classifications — busy exactly when some appointment intersects it,
available exactly when it is not busy and lies within the window,
unavailable exactly in the remaining case. -/
theorem c3_classification_exhaustive (appts : List Appointment)
    (w : AvailabilityWindow) (s : Int) (hs : s ∈ generateSlots w) :
    (classifySlot appts w s = SlotClass.busy ↔
      slotIsBusy appts w.granularity s = true) ∧
    (classifySlot appts w s = SlotClass.available ↔
      (slotIsBusy appts w.granularity s = false ∧ slotInWindow w s = true)) ∧
    (classifySlot appts w s = SlotClass.unavailable ↔
      (slotIsBusy appts w.granularity s = false ∧ slotInWindow w s = false)) := by
  clear hs
  unfold classifySlot
  by_cases hb : slotIsBusy appts w.granularity s = true
  · simp [hb]
  · rw [Bool.not_eq_true] at hb
    by_cases hw : slotInWindow w s = true
    · simp [hb, hw]
    · rw [Bool.not_eq_true] at hw
      simp [hb, hw]

/-- Witness for C3 at a concrete input: the first default-window slot with
no appointments booked. -/
theorem c3_classification_exhaustive_witness :
    (classifySlot [] defaultWindow 540 = SlotClass.busy ↔
      slotIsBusy [] defaultWindow.granularity 540 = true) ∧
    (classifySlot [] defaultWindow 540 = SlotClass.available ↔
      (slotIsBusy [] defaultWindow.granularity 540 = false ∧
        slotInWindow defaultWindow 540 = true)) ∧
    (classifySlot [] defaultWindow 540 = SlotClass.unavailable ↔
      (slotIsBusy [] defaultWindow.granularity 540 = false ∧
        slotInWindow defaultWindow 540 = false)) :=
  c3_classification_exhaustive [] defaultWindow 540 (by decide)

/-- On the same calendar day the minute-of-day difference equals the
instant difference. -/
theorem minutesOfDay_sub_of_sameDay {x y : Int} (h : dayOf x = dayOf y) :
    minutesOfDay x - minutesOfDay y = x - y := by
  unfold dayOf at h
  unfold minutesOfDay
  omega

/-- The code's tolerant fallback (same day and minute-of-day difference at
most 15) coincides with the claim's formulation (same day and start
difference at most 15). -/
theorem tolerantMatch_eq_spec (a : Appointment) (s : Int) :
    tolerantMatch a s = tolerantMatchSpec a s := by
  unfold tolerantMatch tolerantMatchSpec sameCalendarDay
  by_cases h : dayOf a.start = dayOf s
  · have hsub := minutesOfDay_sub_of_sameDay h
    simp [h, hsub]
  · simp [h]

/-- A concrete appointment whose stored interval is 600 to 615. -/
def aptTen : Appointment :=
  ⟨0, ['a'], ['1'], ServiceKey.consultation, 600, 615, 0, 0⟩

/-- C4: the displayed owner of a busy slot is resolved by exact interval
containment first, and only when no appointment contains the slot does the
resolution fall back to the tolerant match of same calendar day and start
difference of at most one 15-minute granularity. -/
theorem c4_busy_owner_resolution (appts : List Appointment) (s : Int) :
    resolveOwner appts s = resolveOwnerSpec appts s ∧
    ((∀ a ∈ appts, aptContainsSlot a s = false) →
      resolveOwner appts s = appts.find? (fun a => tolerantMatch a s)) := by
  constructor
  · unfold resolveOwner resolveOwnerSpec
    have hfun : (fun a => tolerantMatch a s) = (fun a => tolerantMatchSpec a s) :=
      funext (fun a => tolerantMatch_eq_spec a s)
    rw [hfun]
  · intro hnone
    unfold resolveOwner
    have hfind : appts.find? (fun a => aptContainsSlot a s) = none :=
      List.find?_eq_none.mpr (by intro x hx; simp [hnone x hx])
    rw [hfind]

/-- Witness for C4 at a concrete input: slot 620 is outside the stored
interval of `aptTen`, so resolution falls through to the tolerant match,
and the code resolution agrees with the claim's formulation. -/
theorem c4_busy_owner_resolution_witness :
    resolveOwner [aptTen] 620 = resolveOwnerSpec [aptTen] 620 ∧
    resolveOwner [aptTen] 620 = [aptTen].find? (fun a => tolerantMatch a 620) :=
  ⟨(c4_busy_owner_resolution [aptTen] 620).1,
   (c4_busy_owner_resolution [aptTen] 620).2 (by decide)⟩

/-- A concrete appointment starting at minute 0. -/
def aptEarly : Appointment :=
  ⟨0, ['a'], ['1'], ServiceKey.consultation, 0, 15, 0, 0⟩

/-- Filters selecting the past bucket restricted to the last week. -/
def filtersPastWeek : Filters := ⟨[], StatusFilter.past, none, DateRangeFilter.week⟩

/-- C5 counterexample: with the status sample held fixed at minute 50, the
query result still depends on the separately sampled date-range instant, so
the comparisons of one query call are not all made against one single
sampled now (the source samples new Date() once in the status block and
again in the date-range block). -/
theorem c5_counterexample :
    filteredAppointments [aptEarly] filtersPastWeek 50 20000 ≠
      filteredAppointments [aptEarly] filtersPastWeek 50 50 := by decide

/-- Follows the claim text: the query as a pure function of appointments,
filters and one single now instant used by both the status-bucket and the
date-range comparisons. -/
def querySingleNow (appts : List Appointment) (f : Filters) (now : Int) :
    List Appointment :=
  let l1 := if f.searchTerm.isEmpty then appts
    else appts.filter (matchesSearch f.searchTerm)
  let l2 := if f.statusFilter = StatusFilter.all then l1
    else l1.filter (statusKeep f.statusFilter now)
  let l3 := match f.serviceFilter with
    | none => l2
    | some k => l2.filter (fun a => decide (a.service = k))
  let l4 := if f.dateRangeFilter = DateRangeFilter.all then l3
    else l3.filter (dateRangeKeep f.dateRangeFilter now)
  List.insertionSort byStartDesc l4

/-- C5 amended: the query samples one now instant for the status-bucket
comparisons and a second one for the date-range comparisons; the result
depends on each sample only through its own filter block (it ignores a
sample whose block is unrestricted), and whenever the two sampled instants
coincide the query is the deterministic pure function of appointments,
filters and that single now. -/
theorem c5_two_now_samples :
    (∀ (appts : List Appointment) (f : Filters) (n1 n2 m1 : Int),
      f.statusFilter = StatusFilter.all →
      filteredAppointments appts f n1 n2 = filteredAppointments appts f m1 n2) ∧
    (∀ (appts : List Appointment) (f : Filters) (n1 n2 m2 : Int),
      f.dateRangeFilter = DateRangeFilter.all →
      filteredAppointments appts f n1 n2 = filteredAppointments appts f n1 m2) ∧
    (∀ (appts : List Appointment) (f : Filters) (now : Int),
      filteredAppointments appts f now now = querySingleNow appts f now) := by
  refine ⟨?_, ?_, ?_⟩
  · intro appts f n1 n2 m1 h
    simp [filteredAppointments, h]
  · intro appts f n1 n2 m2 h
    simp [filteredAppointments, h]
  · intro appts f now
    rfl

/-- Witness for C5 at concrete inputs: with an unrestricted status bucket
the status sample is irrelevant, and coincident samples reduce to the
single-now query. -/
theorem c5_two_now_samples_witness :
    filteredAppointments [aptEarly] ⟨[], StatusFilter.all, none, DateRangeFilter.week⟩ 1 2 =
      filteredAppointments [aptEarly] ⟨[], StatusFilter.all, none, DateRangeFilter.week⟩ 3 2 ∧
    filteredAppointments [aptEarly] filtersPastWeek 50 50 =
      querySingleNow [aptEarly] filtersPastWeek 50 :=
  ⟨c5_two_now_samples.1 [aptEarly] ⟨[], StatusFilter.all, none, DateRangeFilter.week⟩ 1 2 3 rfl,
   c5_two_now_samples.2.2 [aptEarly] filtersPastWeek 50⟩

/-- C6: for every appointment set and every combination of filters the
query result is sorted in descending order by start instant. -/
theorem c6_result_sorted_descending (appts : List Appointment) (f : Filters)
    (nowStatus nowRange : Int) :
    (filteredAppointments appts f nowStatus nowRange).Pairwise
      (fun x y => y.start ≤ x.start) := by
  unfold filteredAppointments
  exact List.sorted_insertionSort byStartDesc _

/-- Follows the claim text: the digit characters of a stored phone
number. -/
def digitsOf (s : List Char) : List Char := s.filter Char.isDigit

/-- Follows the claim text: keep an appointment when the term is a
case-insensitive substring of the name or matches the digits of the phone
number. -/
def specSearchKeep (term : List Char) (a : Appointment) : Bool :=
  containsSub (toLowerL a.name) (toLowerL term) ||
    containsSub (digitsOf a.phoneNumber) term

/-- A concrete appointment with punctuation inside the phone number. -/
def aptAnna : Appointment :=
  ⟨1, ['A', 'n', 'n', 'a'], ['1', '2', '-', '3', '4'],
    ServiceKey.treatment, 0, 45, 0, 0⟩

/-- Free-text filters searching for the digit run 1234. -/
def filtersSearch1234 : Filters :=
  ⟨['1', '2', '3', '4'], StatusFilter.all, none, DateRangeFilter.all⟩

/-- C7 counterexample: the term 1234 matches the digits of the stored phone
number 12-34, so the claim keeps the appointment, but the code checks the
term against the raw phone string and drops it. -/
theorem c7_counterexample :
    specSearchKeep filtersSearch1234.searchTerm aptAnna = true ∧
    filteredAppointments [aptAnna] filtersSearch1234 0 0 = [] := by decide

/-- C7 amended: with the other filters unrestricted and a non-empty search
term, an appointment is kept by the query exactly when the term is a
case-insensitive substring of the patient name or a verbatim substring of
the stored phone number string. -/
theorem c7_free_text_filter (appts : List Appointment) (f : Filters)
    (n1 n2 : Int) (a : Appointment)
    (hst : f.statusFilter = StatusFilter.all)
    (hsv : f.serviceFilter = none)
    (hdr : f.dateRangeFilter = DateRangeFilter.all)
    (hterm : f.searchTerm.isEmpty = false) :
    a ∈ filteredAppointments appts f n1 n2 ↔
      a ∈ appts ∧
        (containsSub (toLowerL a.name) (toLowerL f.searchTerm) = true ∨
          containsSub a.phoneNumber f.searchTerm = true) := by
  unfold filteredAppointments
  rw [hst, hsv, hdr, hterm]
  simp only [Bool.false_eq_true, if_false, if_pos rfl]
  rw [(List.perm_insertionSort byStartDesc _).mem_iff]
  simp only [eq_self_iff_true, if_true, List.mem_filter]
  simp [matchesSearch]

/-- Free-text filters searching for the lower-case fragment an. -/
def filtersSearchAn : Filters :=
  ⟨['a', 'n'], StatusFilter.all, none, DateRangeFilter.all⟩

/-- Witness for the amended C7 at concrete inputs: searching an against the
appointment of patient Anna. -/
theorem c7_free_text_filter_witness :
    aptAnna ∈ filteredAppointments [aptAnna] filtersSearchAn 0 0 ↔
      aptAnna ∈ [aptAnna] ∧
        (containsSub (toLowerL aptAnna.name) (toLowerL filtersSearchAn.searchTerm) = true ∨
          containsSub aptAnna.phoneNumber filtersSearchAn.searchTerm = true) :=
  c7_free_text_filter [aptAnna] filtersSearchAn 0 0 aptAnna rfl rfl rfl rfl

/-- C8 counterexample: the string 1+2 consists only of characters the claim
allows (digits, spaces, plus, minus, parentheses), yet the validation
pattern rejects it, because the pattern permits a plus sign only in leading
position. -/
theorem c8_counterexample :
    phoneMatchesPattern ['1', '+', '2'] = false ∧
    (['1', '+', '2'] ≠ [] ∧ ∀ c ∈ ['1', '+', '2'],
      (c.isDigit || c = ' ' || c = '+' || c = '-' ||
        c = '(' || c = ')') = true) := by decide

/-- C8 amended: validation accepts a phone string exactly when it is an
optional leading plus sign followed by a non-empty run of digits,
whitespace, minus signs and parentheses (a plus sign is allowed only as the
first character), and a draft whose phone number fails the pattern is
rejected with a validation error. -/
theorem c8_phone_pattern :
    (∀ s : List Char, phoneMatchesPattern s = true ↔
      ((∃ t, s = '+' :: t ∧ t ≠ [] ∧ ∀ c ∈ t, isPhoneBodyChar c = true) ∨
        (s ≠ [] ∧ ∀ c ∈ s, isPhoneBodyChar c = true))) ∧
    (∀ (σ : RepoState) (now : Int) (d : Draft),
      phoneMatchesPattern d.phoneNumber = false →
      repoCreate σ now d = Except.error RepoError.validationError) := by
  constructor
  · intro s
    cases s with
    | nil => simp [phoneMatchesPattern]
    | cons c rest =>
        by_cases hc : c = '+'
        · subst hc
          have hplus : isPhoneBodyChar '+' = false := by decide
          simp [phoneMatchesPattern, List.all_eq_true, hplus, List.isEmpty_iff]
        · simp [phoneMatchesPattern, hc, List.all_eq_true]
  · intro σ now d hp
    have hv : validDraft d = false := by
      unfold validDraft
      rw [hp]
      simp
    simp only [repoCreate, hv, Bool.not_false, if_true]

/-- A concrete draft whose phone number has an inner plus sign. -/
def draftBadPhone : Draft := ⟨['x'], ['1', '+', '2'], ServiceKey.consultation, 0⟩

/-- Witness for the amended C8 at a concrete input: creating with the phone
number 1+2 is rejected as a validation error. -/
theorem c8_phone_pattern_witness :
    repoCreate ⟨0, []⟩ 0 draftBadPhone = Except.error RepoError.validationError :=
  c8_phone_pattern.2 ⟨0, []⟩ 0 draftBadPhone (by decide)

/-- C9: the service enumeration has exactly the four keys with canonical
durations 15, 45, 45 and 45 minutes, the dropdown durations agree with the
canonical ones, and every appointment committed by the repository has its
end equal to its start plus its service's canonical duration. -/
theorem c9_service_durations :
    serviceOptions.map (fun o => (o.value, o.duration)) =
      [(ServiceKey.consultation, 15), (ServiceKey.treatment, 45),
       (ServiceKey.extraction, 45), (ServiceKey.prosthetics, 45)] ∧
    (∀ k : ServiceKey, k = ServiceKey.consultation ∨ k = ServiceKey.treatment ∨
      k = ServiceKey.extraction ∨ k = ServiceKey.prosthetics) ∧
    (∀ o ∈ serviceOptions, o.duration = serviceDuration o.value) ∧
    (∀ ops : List RepoOp, ∀ a ∈ (runOps ops).appts,
      a.endTime = a.start + serviceDuration a.service) := by
  refine ⟨by decide, ?_, by decide, ?_⟩
  · intro k
    cases k <;> simp
  · intro ops a ha
    exact ((runOps_inv ops).2 a ha).1

/-- Witness for C9 at a concrete input: the appointment committed for
`draftA` is in the repository and its end is start plus duration. -/
theorem c9_service_durations_witness :
    aptTen ∈ (runOps [RepoOp.create 0 draftA]).appts ∧
    aptTen.endTime = aptTen.start + serviceDuration aptTen.service :=
  ⟨by decide,
   c9_service_durations.2.2.2 [RepoOp.create 0 draftA] aptTen (by decide)⟩

/-- A concrete appointment at minute 2040 (10:00 of day one). -/
def aptLate : Appointment :=
  ⟨2, ['l'], ['5'], ServiceKey.consultation, 2040, 2055, 0, 0⟩

/-- C10: the status badge follows a 24-hour lookahead rule — completed when
the start is past, today when the start is less than 24 hours ahead even on
the next calendar day, upcoming otherwise — and it can disagree with the
today status-bucket filter, which uses same-calendar-day membership. -/
theorem c10_badge_24h_rule (s n : Int) :
    (getStatusBadge s n = Badge.completed ↔ s < n) ∧
    (getStatusBadge s n = Badge.today ↔ (n ≤ s ∧ s - n < 1440)) ∧
    (getStatusBadge s n = Badge.upcoming ↔ (n ≤ s ∧ 1440 ≤ s - n)) ∧
    (getStatusBadge aptLate.start 1380 = Badge.today ∧
      statusKeep StatusFilter.today 1380 aptLate = false) := by
  refine ⟨?_, ?_, ?_, by decide⟩
  · unfold getStatusBadge
    split_ifs with h1 h2 <;> simp <;> omega
  · unfold getStatusBadge
    split_ifs with h1 h2 <;> simp <;> omega
  · unfold getStatusBadge
    split_ifs with h1 h2 <;> simp <;> omega
